import Mathlib

/-!
Verification of the frame/interpreter engine of a JVM bytecode interpreter
(the `Frame` implementation in `src/runtime/frame.rs`).

Modelling conventions.  Rust machine integers are modelled as `Int` with
explicit two's-complement wrapping (`wrapU`/`wrapS`); the bytecode array is a
`List Nat` of byte values (the classfile type `U1` is `u8`, as the sibling
`javap` tool's `codes : &[u8]` confirms, so each element lies in `[0, 255]`);
`f32`/`f64` values are modelled by an algebraic IEEE value type `FP`
distinguishing NaN, the two infinities and finite values as exact rationals.
Rounding of float arithmetic results and the sign of zero are not modelled;
no property below depends on them.  Typed operand-stack accessors that meet a
value of the wrong kind fail loudly (`typeError`), mirroring the accessor
contract of the runtime stack.  Reference-counted sharing is not modelled:
`Arc::get_mut(..).unwrap()` is treated as succeeding, which is generous to
the store instructions that use it.
-/

/-- Unsigned interpretation of a `w`-bit machine word holding `n`: the bit
pattern as a number, i.e. `n` reduced modulo `2 ^ w` into `[0, 2 ^ w)`. -/
def wrapU (w : Nat) (n : Int) : Int := n % 2 ^ w

/-- Two's-complement signed wrap-around of `n` into `[-2 ^ (w-1), 2 ^ (w-1))`,
the value an overflowing `w`-bit signed operation produces in release mode. -/
def wrapS (w : Nat) (n : Int) : Int := (n + 2 ^ (w - 1)) % 2 ^ w - 2 ^ (w - 1)

/-- Rust release-mode `<<` on a `w`-bit signed integer: the shift amount is
cast to the unsigned type and masked by `w - 1` (hence taken modulo `w`,
which for an amount in `[-w, w)` picks its representative in `[0, w)`), and
the shifted value wraps modulo `2 ^ w`. -/
def rustShl (w : Nat) (a b : Int) : Int := wrapS w (a * 2 ^ (b % (w : Int)).toNat)

/-- Algebraic model of an IEEE `f32`/`f64` value: NaN, the two infinities, and
finite values kept exact as rationals. -/
inductive FP where
  | nan
  | posInf
  | negInf
  | finite (q : ℚ)
deriving DecidableEq

/-- Rust `f32::is_nan`. -/
def FP.is_nan : FP → Bool
  | .nan => true
  | _ => false

/-- Rust `f32::is_infinite`. -/
def FP.is_infinite : FP → Bool
  | .posInf => true
  | .negInf => true
  | _ => false

/-- Rust `f32::is_sign_positive`; the source only consults it on infinities. -/
def FP.is_sign_positive : FP → Bool
  | .posInf => true
  | .negInf => false
  | .nan => true
  | .finite q => decide (0 ≤ q)

/-- IEEE `>`: false whenever either operand is NaN. -/
def FP.gt : FP → FP → Bool
  | .nan, _ => false
  | _, .nan => false
  | .posInf, .posInf => false
  | .posInf, _ => true
  | .negInf, _ => false
  | .finite _, .posInf => false
  | .finite q, .finite r => decide (r < q)
  | .finite _, .negInf => true

/-- IEEE `<`. -/
def FP.lt (a b : FP) : Bool := FP.gt b a

/-- IEEE `==`: false whenever either operand is NaN; `0.0 == -0.0` holds, so a
single finite zero loses nothing. -/
def FP.beq : FP → FP → Bool
  | .nan, _ => false
  | _, .nan => false
  | .posInf, .posInf => true
  | .negInf, .negInf => true
  | .finite q, .finite r => decide (q = r)
  | _, _ => false

/-- IEEE division, exact on finite results (rounding not modelled). -/
def FP.div : FP → FP → FP
  | .nan, _ => .nan
  | _, .nan => .nan
  | .posInf, .posInf => .nan
  | .posInf, .negInf => .nan
  | .negInf, .posInf => .nan
  | .negInf, .negInf => .nan
  | .posInf, .finite q => if 0 ≤ q then .posInf else .negInf
  | .negInf, .finite q => if 0 ≤ q then .negInf else .posInf
  | .finite _, .posInf => .finite 0
  | .finite _, .negInf => .finite 0
  | .finite q, .finite r =>
      if r = 0 then (if q = 0 then .nan else if 0 < q then .posInf else .negInf)
      else .finite (q / r)

/-- The exception kinds the frame constructs (`consts::J_NPE`,
`consts::J_ARRAY_INDEX_OUT_OF_BOUNDS`, `consts::J_ARITHMETIC_EX`). -/
inductive ExcKind where
  | J_NPE
  | J_ARRAY_INDEX_OUT_OF_BOUNDS
  | J_ARITHMETIC_EX
deriving DecidableEq

/-- Field value types recovered from constant-pool resolution
(`oop::ValueType`). -/
inductive ValueType where
  | OBJECT
  | ARRAY
  | INT
  | LONG
  | FLOAT
  | DOUBLE
  | SHORT
  | CHAR
  | BOOLEAN
  | BYTE
deriving DecidableEq

/-- Runtime value (`Oop`): tagged primitive, non-null object reference
(identified by id), array (with its element list), throwable produced by
exception construction, or the canonical null. -/
inductive OopV where
  | nullv
  | int (v : Int)
  | long (v : Int)
  | float (v : FP)
  | double (v : FP)
  | ref (id : Nat)
  | array (elems : List OopV)
  | exc (kind : ExcKind) (msg : Option String)

/-- `oop_consts::get_null()`: the VM-wide canonical null singleton.  Identity
comparison with it (`Arc::ptr_eq`) is modelled as equality with `nullv`,
which is the unique null value of the model. -/
def get_null : OopV := OopV.nullv

/-- Outcome of one instruction handler on the operand stack: normal completion
with the new stack, a recorded fault (pending exception kind and message,
before exception dispatch runs), a typed-accessor contract violation, or a
Rust-level abort. -/
inductive StepRes where
  | ok (stack : List OopV)
  | fault (kind : ExcKind) (msg : Option String)
  | typeError
  | vmPanic (msg : String)

/-- Outcome of an array store: normal completion carries the updated element
list of the (shared) array besides the remaining stack. -/
inductive StoreRes where
  | ok (elems : List OopV) (stack : List OopV)
  | fault (kind : ExcKind) (msg : Option String)
  | typeError

/-- The frame state the exception/return claims need: operand stack, program
counter, the owning thread's single pending-exception slot, and the frame's
return value `return_v`. -/
structure Frame where
  stack : List OopV
  pc : Int
  pending : Option OopV
  return_v : Option OopV

/-- `Frame::read_i1`: reads the byte at `pc` and advances `pc` by one.  The
byte has type `U1 = u8`, so the concluding Rust cast `v as i32`
zero-extends: the result is the byte value itself, in `[0, 255]`. -/
def read_i1 (code : List Nat) (pc : Int) : Int × Int :=
  ((code.getD pc.toNat 0 : Int), pc + 1)

/-- `Frame::read_i2`: two `read_i1` reads combined as `hi << 8 | lo`; since
both values lie in `[0, 255]`, the i32 shift-or equals `hi * 256 + lo`. -/
def read_i2 (code : List Nat) (pc : Int) : Int × Int :=
  let hi := read_i1 code pc
  let lo := read_i1 code hi.2
  (hi.1 * 256 + lo.1, lo.2)

/-- `Frame::read_u1`: reads the byte at `pc` as an unsigned value. -/
def read_u1 (code : List Nat) (pc : Int) : Nat × Int :=
  (code.getD pc.toNat 0, pc + 1)

/-- `Frame::read_u2`: two `read_u1` reads combined as `hi << 8 | lo`. -/
def read_u2 (code : List Nat) (pc : Int) : Nat × Int :=
  let hi := read_u1 code pc
  let lo := read_u1 code hi.2
  (hi.1 <<< 8 ||| lo.1, lo.2)

/-- `Frame::if_icmpeq`: pops `v2` then `v1`; when taken, reads the 2-byte
offset (advancing `pc` past it) and then performs `pc += branch; pc += -1`;
when not taken, skips the operand bytes with `pc += 2`.  `pc` at entry points
at the first offset byte (the dispatch loop advanced it past the opcode). -/
def if_icmpeq (code : List Nat) (stack : List OopV) (pc : Int) :
    Option (List OopV × Int) :=
  match stack with
  | .int v2 :: .int v1 :: s =>
      if v1 = v2 then
        let br := read_i2 code pc
        some (s, br.2 + br.1 - 1)
      else
        some (s, pc + 2)
  | _ => none

/-- `Frame::goto`: unconditional branch, same `pc += branch; pc += -1`
arithmetic after `read_i2`. -/
def goto (code : List Nat) (pc : Int) : Int :=
  let br := read_i2 code pc
  br.2 + br.1 - 1

/-- `Frame::iushr`: `s = v2 & 0x1F` (the low five bits, i.e. `v2 mod 32` in
two's complement); for non-negative `v1` pushes the arithmetic shift
`v1 >> s` (floor division by `2 ^ s`); for negative `v1` pushes
`(v1 >> s) + (2 << !s)` where `!s = -s - 1`, with the shift and the addition
wrapping per release-mode i32 arithmetic. -/
def iushr (v1 v2 : Int) : Int :=
  let s : Nat := (v2 % 32).toNat
  if 0 ≤ v1 then v1 / 2 ^ s
  else wrapS 32 (v1 / 2 ^ s + rustShl 32 2 (-(v2 % 32) - 1))

/-- `Frame::lushr`: as `iushr` with a 6-bit mask and 64-bit arithmetic. -/
def lushr (v1 v2 : Int) : Int :=
  let s : Nat := (v2 % 64).toNat
  if 0 ≤ v1 then v1 / 2 ^ s
  else wrapS 64 (v1 / 2 ^ s + rustShl 64 2 (-(v2 % 64) - 1))

/-- `Frame::idiv`: pops `v2` then `v1`; zero divisor raises the arithmetic
fault with message "divide by zero"; otherwise pushes the Rust truncating
quotient `v1 / v2`, which aborts on the lone signed overflow `MIN / -1`. -/
def idiv : List OopV → StepRes
  | .int v2 :: .int v1 :: s =>
      if v2 = 0 then .fault .J_ARITHMETIC_EX (some "divide by zero")
      else if v1 = -(2 ^ 31) ∧ v2 = -1 then .vmPanic "attempt to divide with overflow"
      else .ok (.int (v1.tdiv v2) :: s)
  | _ => .typeError

/-- `Frame::irem`: like `idiv` but pushes `v1 - (v1 / v2) * v2`. -/
def irem : List OopV → StepRes
  | .int v2 :: .int v1 :: s =>
      if v2 = 0 then .fault .J_ARITHMETIC_EX (some "divide by zero")
      else if v1 = -(2 ^ 31) ∧ v2 = -1 then .vmPanic "attempt to divide with overflow"
      else .ok (.int (v1 - v1.tdiv v2 * v2) :: s)
  | _ => .typeError

/-- `Frame::fdiv`: pops `v2` then `v1`; the source tests `v2 == 0.0` and, when
it holds, raises the arithmetic fault with message "divide by zero" exactly
as the integer division does; only otherwise does it push `v1 / v2`. -/
def fdiv : List OopV → StepRes
  | .float v2 :: .float v1 :: s =>
      if FP.beq v2 (.finite 0) then .fault .J_ARITHMETIC_EX (some "divide by zero")
      else .ok (.float (FP.div v1 v2) :: s)
  | _ => .typeError

/-- `Frame::ddiv`: identical shape to `fdiv` on doubles. -/
def ddiv : List OopV → StepRes
  | .double v2 :: .double v1 :: s =>
      if FP.beq v2 (.finite 0) then .fault .J_ARITHMETIC_EX (some "divide by zero")
      else .ok (.double (FP.div v1 v2) :: s)
  | _ => .typeError

/-- `Frame::lcmp`: pops `v1` first (the value pushed last) and `v2` second;
pushes `-1` when `v1 > v2`, `1` when `v1 < v2`, else `0`. -/
def lcmp : List OopV → StepRes
  | .long v1 :: .long v2 :: s =>
      if v1 > v2 then .ok (.int (-1) :: s)
      else if v1 < v2 then .ok (.int 1 :: s)
      else .ok (.int 0 :: s)
  | _ => .typeError

/-- `Frame::fcmpl`: pops `v1` then `v2`; pushes `-1` when either is NaN, else
`-1`/`1`/`0` as `v1` is greater/less/equal. -/
def fcmpl : List OopV → StepRes
  | .float v1 :: .float v2 :: s =>
      if v1.is_nan || v2.is_nan then .ok (.int (-1) :: s)
      else if v1.gt v2 then .ok (.int (-1) :: s)
      else if v1.lt v2 then .ok (.int 1 :: s)
      else .ok (.int 0 :: s)
  | _ => .typeError

/-- `Frame::fcmpg`: as `fcmpl` but pushes `1` on NaN. -/
def fcmpg : List OopV → StepRes
  | .float v1 :: .float v2 :: s =>
      if v1.is_nan || v2.is_nan then .ok (.int 1 :: s)
      else if v1.gt v2 then .ok (.int (-1) :: s)
      else if v1.lt v2 then .ok (.int 1 :: s)
      else .ok (.int 0 :: s)
  | _ => .typeError

/-- `Frame::dcmpl`: the double version of `fcmpl`. -/
def dcmpl : List OopV → StepRes
  | .double v1 :: .double v2 :: s =>
      if v1.is_nan || v2.is_nan then .ok (.int (-1) :: s)
      else if v1.gt v2 then .ok (.int (-1) :: s)
      else if v1.lt v2 then .ok (.int 1 :: s)
      else .ok (.int 0 :: s)
  | _ => .typeError

/-- `Frame::dcmpg`: the double version of `fcmpg`. -/
def dcmpg : List OopV → StepRes
  | .double v1 :: .double v2 :: s =>
      if v1.is_nan || v2.is_nan then .ok (.int 1 :: s)
      else if v1.gt v2 then .ok (.int (-1) :: s)
      else if v1.lt v2 then .ok (.int 1 :: s)
      else .ok (.int 0 :: s)
  | _ => .typeError

/-- Truncation toward zero of a rational, the rounding of Rust float-to-int
casts on in-range values. -/
def ratTrunc (q : ℚ) : Int := q.num.tdiv q.den

/-- Rust `as` cast from a float to an integer type with range `[lo, hi]`:
saturating since Rust 1.45 (NaN to 0, out-of-range truncations clamp). -/
def castSat (lo hi : Int) : FP → Int
  | .nan => 0
  | .posInf => hi
  | .negInf => lo
  | .finite q => max lo (min hi (ratTrunc q))

/-- `Frame::f2i`: NaN to 0; infinities to `i32::MAX`/`i32::MIN` by sign; any
other value through the Rust cast `v as i32`. -/
def f2i (v : FP) : Int :=
  if v.is_nan then 0
  else if v.is_infinite then (if v.is_sign_positive then 2 ^ 31 - 1 else -(2 ^ 31))
  else castSat (-(2 ^ 31)) (2 ^ 31 - 1) v

/-- `Frame::f2l`: as `f2i` with `i64` bounds. -/
def f2l (v : FP) : Int :=
  if v.is_nan then 0
  else if v.is_infinite then (if v.is_sign_positive then 2 ^ 63 - 1 else -(2 ^ 63))
  else castSat (-(2 ^ 63)) (2 ^ 63 - 1) v

/-- `Frame::d2i`: the double source of the same conversion. -/
def d2i (v : FP) : Int :=
  if v.is_nan then 0
  else if v.is_infinite then (if v.is_sign_positive then 2 ^ 31 - 1 else -(2 ^ 31))
  else castSat (-(2 ^ 31)) (2 ^ 31 - 1) v

/-- `Frame::d2l`: the double source with `i64` bounds. -/
def d2l (v : FP) : Int :=
  if v.is_nan then 0
  else if v.is_infinite then (if v.is_sign_positive then 2 ^ 63 - 1 else -(2 ^ 63))
  else castSat (-(2 ^ 63)) (2 ^ 63 - 1) v

/-- `Frame::get_static` after `get_field_helper` resolved the field: pushes
the resolved value with the typed push selected by the resolved value type
(reference push for OBJECT/ARRAY; int push for the five integer categories;
float/double/long pushes respectively). -/
def get_static (resolved : OopV × ValueType) (s : List OopV) : StepRes :=
  match resolved.2 with
  | .OBJECT => .ok (resolved.1 :: s)
  | .ARRAY => .ok (resolved.1 :: s)
  | .INT | .SHORT | .CHAR | .BOOLEAN | .BYTE =>
      match resolved.1 with
      | .int n => .ok (.int n :: s)
      | _ => .typeError
  | .FLOAT =>
      match resolved.1 with
      | .float x => .ok (.float x :: s)
      | _ => .typeError
  | .DOUBLE =>
      match resolved.1 with
      | .double x => .ok (.double x :: s)
      | _ => .typeError
  | .LONG =>
      match resolved.1 with
      | .long n => .ok (.long n :: s)
      | _ => .typeError

/-- `Frame::get_field`: pops the receiver; the canonical null raises the
null-pointer fault; otherwise the source calls `get_field_helper` (whose
resolved value and value type are the `resolved` parameter here, resolution
being the constant-pool collaborator's job) and discards its result — no
push of any kind is performed on the non-null path. -/
def get_field (resolved : OopV × ValueType) : List OopV → StepRes
  | rf :: s =>
      match rf with
      | .nullv => .fault .J_NPE none
      | _ =>
          let _vvt := resolved
          .ok s
  | [] => .typeError

/-- `Frame::iastore`: pops the value, then the index, then the array
reference; null array raises the null-pointer fault; an index outside
`[0, len)` raises the index-out-of-bounds fault with the formatted message;
otherwise stores the int at the index. -/
def iastore : List OopV → StoreRes
  | .int v :: rest =>
      match rest with
      | .int pos :: rest2 =>
          match rest2 with
          | .array elems :: s =>
              if pos < 0 ∨ (elems.length : Int) ≤ pos then
                .fault .J_ARRAY_INDEX_OUT_OF_BOUNDS
                  (some ("length is " ++ toString elems.length ++ ", but index is " ++ toString pos))
              else .ok (elems.set pos.toNat (.int v)) s
          | .nullv :: _ => .fault .J_NPE none
          | _ => .typeError
      | _ => .typeError
  | _ => .typeError

/-- `Frame::aastore`: pops the index FIRST, then the array reference, and pops
the stored value only inside the in-bounds branch — the order the source
actually performs, faithfully reproduced. -/
def aastore : List OopV → StoreRes
  | .int pos :: rest =>
      match rest with
      | .array elems :: rest2 =>
          if pos < 0 ∨ (elems.length : Int) ≤ pos then
            .fault .J_ARRAY_INDEX_OUT_OF_BOUNDS
              (some ("length is " ++ toString elems.length ++ ", but index is " ++ toString pos))
          else
            match rest2 with
            | v :: s => .ok (elems.set pos.toNat v) s
            | [] => .typeError
      | .nullv :: _ => .fault .J_NPE none
      | _ => .typeError
  | _ => .typeError

/-- `Frame::athrow` given the thread's handler search
(`JavaThread::try_handle_exception`, a collaborator modelled as the `search`
function; per the dispatch contract it returns the handler's entry offset and
a non-positive number when no table entry matches).  Pops the throwable; a
thrown null is converted into a null-pointer fault whose freshly constructed
(hence non-null) exception object goes through the same search once more; on
a found handler the stack is cleared, the exception pushed back and `pc` set
to the handler offset; otherwise the exception becomes `return_v`. -/
def athrow (search : OopV → Int) (f : Frame) : Option Frame :=
  match f.stack with
  | [] => none
  | rf :: rest =>
      match rf with
      | .nullv =>
          let npe := OopV.exc .J_NPE none
          if search npe > 0 then
            some { f with stack := [npe], pc := search npe, pending := none }
          else
            some { f with stack := [], pending := none, return_v := some npe }
      | _ =>
          if search rf > 0 then
            some { f with stack := [rf], pc := search rf }
          else
            some { f with stack := rest, return_v := some rf }

/-- `Frame::handle_exception`: clears the operand stack, pushes the thread's
pending exception as the sole stack value, clears the pending slot
(`JavaThread::clear_ext`), then runs `athrow`.  `None` models the
`unwrap` abort when no exception is pending. -/
def handle_exception (search : OopV → Int) (f : Frame) : Option Frame :=
  match f.pending with
  | none => none
  | some ext => athrow search { f with stack := [ext], pending := none }

/-- `Frame::return_` (void return): sets `return_v` to the canonical null. -/
def return_ (f : Frame) : Frame :=
  { f with return_v := some get_null }

/-- `Frame::areturn`: pops a reference and sets it as `return_v`. -/
def areturn (f : Frame) : Option Frame :=
  match f.stack with
  | v :: rest => some { f with stack := rest, return_v := some v }
  | [] => none

/-- The instruction stream of the C1 example: `[if_icmpeq, 0x00, 0x05, ...]`
at offset 10 (0x9F is the `if_icmpeq` opcode), preceded by padding. -/
def c1_code : List Nat := List.replicate 10 0 ++ [159, 0, 5]

/- ------------------------------------------------------------------ -/
/- Helper lemmas                                                      -/
/- ------------------------------------------------------------------ -/

theorem wrapS_emod (w : Nat) (x : Int) : wrapS w x % 2 ^ w = x % 2 ^ w := by
  unfold wrapS
  rw [Int.sub_emod, Int.emod_emod_of_dvd _ dvd_rfl, ← Int.sub_emod,
    add_sub_cancel_right]

theorem ushr_neg_correct (w s : Nat) (v1 : Int) (hs : s < w)
    (hlo : -(2 ^ (w - 1)) ≤ v1) (hneg : v1 < 0) :
    wrapS w (v1 / 2 ^ s + wrapS w (2 ^ (w - s))) % 2 ^ w = v1 % 2 ^ w / 2 ^ s := by
  have hhalf : (2 : Int) ^ (w - 1) ≤ 2 ^ w := by
    apply pow_le_pow_right₀ one_le_two
    omega
  have hpow : (2 : Int) ^ (w - s) * 2 ^ s = 2 ^ w := by
    rw [← pow_add]
    congr 1
    omega
  have hnn : (0 : Int) ≤ v1 + 2 ^ w := by linarith
  have hvM : v1 % 2 ^ w = v1 + 2 ^ w := by
    have e1 : (v1 + 2 ^ w) % 2 ^ w = v1 % 2 ^ w := by
      rw [Int.add_emod, Int.emod_self, add_zero, Int.emod_emod_of_dvd _ dvd_rfl]
    have e2 : (v1 + 2 ^ w) % 2 ^ w = v1 + 2 ^ w :=
      Int.emod_eq_of_lt hnn (by linarith)
    omega
  rw [wrapS_emod, Int.add_emod (v1 / 2 ^ s), wrapS_emod, ← Int.add_emod]
  have hdiv : v1 / 2 ^ s + 2 ^ (w - s) = (v1 + 2 ^ w) / 2 ^ s := by
    have h2s : (2 : Int) ^ s ≠ 0 := by positivity
    rw [← hpow, Int.add_mul_ediv_right _ _ h2s]
  rw [hdiv, hvM]
  apply Int.emod_eq_of_lt
  · exact Int.ediv_nonneg hnn (by positivity)
  · calc (v1 + 2 ^ w) / 2 ^ s ≤ v1 + 2 ^ w := Int.ediv_le_self _ hnn
      _ < 2 ^ w := by linarith

theorem ushr_pos_correct (w s : Nat) (v1 : Int) (h0 : 0 ≤ v1)
    (hhi : v1 < 2 ^ (w - 1)) (hw : 1 ≤ w) :
    v1 / 2 ^ s % 2 ^ w = v1 % 2 ^ w / 2 ^ s := by
  have hhalf : (2 : Int) ^ (w - 1) ≤ 2 ^ w := by
    apply pow_le_pow_right₀ one_le_two
    omega
  have hv : v1 % 2 ^ w = v1 := Int.emod_eq_of_lt h0 (by linarith)
  have hq : v1 / 2 ^ s % 2 ^ w = v1 / 2 ^ s := by
    apply Int.emod_eq_of_lt (Int.ediv_nonneg h0 (by positivity))
    calc v1 / 2 ^ s ≤ v1 := Int.ediv_le_self _ h0
      _ < 2 ^ w := by linarith
  rw [hv, hq]

theorem rustShl_not_mask (w : Nat) (m : Int) (hw : 1 ≤ w) (hm0 : 0 ≤ m)
    (hm : m < (w : Int)) :
    rustShl w 2 (-m - 1) = wrapS w (2 ^ (w - m.toNat)) := by
  unfold rustShl
  have h1 : (-m - 1) % (w : Int) = (w : Int) - 1 - m := by
    have : ((-m - 1) + w) % (w : Int) = (-m - 1) % (w : Int) := by
      rw [Int.add_emod, Int.emod_self, add_zero, Int.emod_emod_of_dvd _ dvd_rfl]
    rw [← this]
    have h4 : (-m - 1 + (w : Int)) % (w : Int) = -m - 1 + (w : Int) :=
      Int.emod_eq_of_lt (by omega) (by omega)
    omega
  rw [h1]
  congr 1
  have h2 : ((w : Int) - 1 - m).toNat = w - 1 - m.toNat := by omega
  rw [h2]
  have h3 : w - m.toNat = (w - 1 - m.toNat) + 1 := by omega
  rw [h3, pow_succ]
  ring

/- ------------------------------------------------------------------ -/
/- Claim theorems                                                     -/
/- ------------------------------------------------------------------ -/

/-- C1.  Evaluation of the taken-branch handlers at the claim's concrete
input: bytecode `[if_icmpeq, 0x00, 0x05]` at offset 10, handler entered with
`pc = 11` (the first offset byte) and equal popped operands.  The handler
leaves the program counter at 17, not at the claimed
`pc_at_offset_start + offset - 1 = 15`: `read_i2` has already advanced `pc`
two bytes past the offset before `pc += branch; pc += -1` runs, so every
taken branch lands two bytes beyond the intended target. -/
theorem if_icmpeq_branch_lands_past_target :
    if_icmpeq c1_code [OopV.int 3, OopV.int 3] 11 = some ([], 17) ∧
    goto c1_code 11 = 17 ∧ (17 : Int) ≠ 15 := by
  refine ⟨rfl, rfl, by decide⟩

/-- C2.  Evaluation of the byte readers: on byte `0xFF` the "signed" reader
`read_i1` returns 255, not -1, and on bytes `0xFF 0xFE` the reader `read_i2`
returns 65534, not -2 — the `U1 = u8` byte is zero-extended by `v as i32`,
identically to the unsigned readers, so no sign extension happens and a
branch operand with the high bit set becomes a large positive offset. -/
theorem read_signed_readers_zero_extend :
    read_i1 [255] 0 = (255, 1) ∧
    read_i2 [255, 254] 0 = (65534, 2) ∧
    read_u1 [255] 0 = (255, 1) ∧
    read_u2 [255, 254] 0 = (65534, 2) ∧
    ¬ (read_i1 [255] 0).1 = -1 ∧
    ¬ (read_i2 [255, 254] 0).1 < 0 := by
  refine ⟨rfl, rfl, rfl, rfl, by decide, by decide⟩

/-- C3.  For every i32 operand and every shift amount, `iushr` masks the
amount to five bits and its pushed result has exactly the bit pattern of the
logical (zero-filling) right shift of the operand's unsigned representation;
`lushr` likewise with a six-bit mask on 64 bits.  The release-mode wrapping
arithmetic of the `(v1 >> s) + (2 << !s)` correction makes the formula exact
for every masked amount, 0 and 31 (resp. 63) included. -/
theorem ushr_is_logical_shift :
    (∀ v1 v2 : Int, -(2 ^ 31) ≤ v1 → v1 < 2 ^ 31 →
      wrapU 32 (iushr v1 v2) = wrapU 32 v1 / 2 ^ (v2 % 32).toNat) ∧
    (∀ v1 v2 : Int, -(2 ^ 63) ≤ v1 → v1 < 2 ^ 63 →
      wrapU 64 (lushr v1 v2) = wrapU 64 v1 / 2 ^ (v2 % 64).toNat) := by
  constructor
  · intro v1 v2 hlo hhi
    have hm0 : (0 : Int) ≤ v2 % 32 := by omega
    have hm : v2 % 32 < (32 : Int) := by omega
    unfold iushr wrapU
    by_cases h0 : 0 ≤ v1
    · rw [if_pos h0]
      exact ushr_pos_correct 32 (v2 % 32).toNat v1 h0 hhi (by omega)
    · rw [if_neg h0]
      rw [rustShl_not_mask 32 (v2 % 32) (by omega) hm0 hm]
      exact ushr_neg_correct 32 (v2 % 32).toNat v1 (by omega) hlo (by omega)
  · intro v1 v2 hlo hhi
    have hm0 : (0 : Int) ≤ v2 % 64 := by omega
    have hm : v2 % 64 < (64 : Int) := by omega
    unfold lushr wrapU
    by_cases h0 : 0 ≤ v1
    · rw [if_pos h0]
      exact ushr_pos_correct 64 (v2 % 64).toNat v1 h0 hhi (by omega)
    · rw [if_neg h0]
      rw [rustShl_not_mask 64 (v2 % 64) (by omega) hm0 hm]
      exact ushr_neg_correct 64 (v2 % 64).toNat v1 (by omega) hlo (by omega)

/-- C3 witness: `iushr (-8) 1` produces the bit pattern `2147483644`, the
logical right shift by one of the pattern of `-8`. -/
theorem ushr_is_logical_shift_witness :
    wrapU 32 (iushr (-8) 1) = wrapU 32 (-8) / 2 ^ ((1 : Int) % 32).toNat ∧
    wrapU 32 (iushr (-8) 1) = 2147483644 :=
  ⟨ushr_is_logical_shift.1 (-8) 1 (by decide) (by decide), by decide⟩

/-- C4.  Evaluation at the failing input: float division with divisor `0.0`
raises the arithmetic fault with message "divide by zero" exactly as the
integer division does, contradicting the claim that `fdiv`/`ddiv` never
raise and follow IEEE semantics (the integer conjuncts match the claim). -/
theorem fdiv_raises_on_zero_divisor :
    idiv [OopV.int 0, OopV.int 7] = .fault .J_ARITHMETIC_EX (some "divide by zero") ∧
    irem [OopV.int 0, OopV.int 7] = .fault .J_ARITHMETIC_EX (some "divide by zero") ∧
    idiv [OopV.int 2, OopV.int 7] = .ok [OopV.int 3] ∧
    fdiv [OopV.float (FP.finite 0), OopV.float (FP.finite 1)] =
      .fault .J_ARITHMETIC_EX (some "divide by zero") ∧
    ddiv [OopV.double (FP.finite 0), OopV.double (FP.finite 1)] =
      .fault .J_ARITHMETIC_EX (some "divide by zero") := by
  refine ⟨rfl, rfl, rfl, rfl, rfl⟩

/-- C5.  Evaluation at the failing input: `get_field` on a non-null receiver
with the field resolved to the int value 7 leaves the operand stack with the
receiver popped and NOTHING pushed — the source discards the result of
`get_field_helper` — while `get_static` with the same resolution performs
the typed push the claim describes. -/
theorem get_field_discards_resolved_value :
    get_field (OopV.int 7, ValueType.INT) [OopV.ref 1] = .ok [] ∧
    get_static (OopV.int 7, ValueType.INT) [] = .ok [OopV.int 7] := by
  exact ⟨rfl, rfl⟩

/-- C6.  Evaluation at the failing input: with the operand stack holding (top
first) the stored value `ref 7`, the index `int 0` and an array of length 1
— the layout every JVM compiler produces for an object array store —
`aastore` fails with a typed-accessor violation because it pops the INDEX
first (`pop_int` hits the stored reference); the `iastore` family pops
value, index, array reference in the claimed order and succeeds on the same
layout. -/
theorem aastore_pops_index_before_value :
    aastore [OopV.ref 7, OopV.int 0, OopV.array [OopV.nullv]] = .typeError ∧
    iastore [OopV.int 5, OopV.int 0, OopV.array [OopV.int 0]] =
      .ok [OopV.int 5] [] ∧
    iastore [OopV.int 5, OopV.int 1, OopV.array [OopV.int 0]] =
      .fault .J_ARRAY_INDEX_OUT_OF_BOUNDS (some "length is 1, but index is 1") ∧
    iastore [OopV.int 5, OopV.int 1, OopV.nullv] = .fault .J_NPE none := by
  refine ⟨rfl, rfl, rfl, rfl⟩

/-- C7.  The five comparison instructions pop two values and push exactly
-1, 0 or 1, computing `v1 cmp v2` with `v1` the value pushed earlier: the
result is 1 when `v1 > v2`, -1 when `v1 < v2`, 0 when equal; on a NaN
operand `fcmpl`/`dcmpl` push -1 and `fcmpg`/`dcmpg` push 1. -/
theorem cmp_ops_match_spec (a b : Int) (x y : FP) (s : List OopV) :
    lcmp (.long b :: .long a :: s) =
      .ok (.int (if a > b then 1 else if a < b then -1 else 0) :: s) ∧
    fcmpl (.float y :: .float x :: s) =
      .ok (.int (if x.is_nan || y.is_nan then -1
        else if x.gt y then 1 else if x.lt y then -1 else 0) :: s) ∧
    fcmpg (.float y :: .float x :: s) =
      .ok (.int (if x.is_nan || y.is_nan then 1
        else if x.gt y then 1 else if x.lt y then -1 else 0) :: s) ∧
    dcmpl (.double y :: .double x :: s) =
      .ok (.int (if x.is_nan || y.is_nan then -1
        else if x.gt y then 1 else if x.lt y then -1 else 0) :: s) ∧
    dcmpg (.double y :: .double x :: s) =
      .ok (.int (if x.is_nan || y.is_nan then 1
        else if x.gt y then 1 else if x.lt y then -1 else 0) :: s) := by
  refine ⟨?_, ?_, ?_, ?_, ?_⟩
  · simp only [lcmp]
    rcases lt_trichotomy a b with h | h | h
    · rw [if_pos (show b > a by omega), if_neg (show ¬ a > b by omega),
        if_pos (show a < b by omega)]
    · subst h
      rw [if_neg (show ¬ a > a by omega), if_neg (show ¬ a < a by omega),
        if_neg (show ¬ a > a by omega), if_neg (show ¬ a < a by omega)]
    · rw [if_neg (show ¬ b > a by omega), if_pos (show b < a by omega),
        if_pos (show a > b by omega)]
  all_goals
    (cases x <;> cases y) <;>
      (simp only [fcmpl, fcmpg, dcmpl, dcmpg, FP.is_nan, FP.gt, FP.lt,
        Bool.false_or, Bool.or_false, Bool.true_or, Bool.or_true,
        if_true, if_false, decide_eq_true_eq, Bool.false_eq_true]) <;>
      first
      | rfl
      | (rename_i q r
         rcases lt_trichotomy q r with h | h | h <;>
           simp [h, not_lt_of_gt, lt_asymm, le_of_lt, ne_of_gt, ne_of_lt])

/-- C8 counterexample: the finite double `2147483648.0` (no NaN, no
infinity) is converted by `d2i` to `2147483647 = i32::MAX`, not to its
truncation toward zero `2147483648` — the Rust `as` cast saturates. -/
theorem d2i_saturates_out_of_range :
    d2i (FP.finite ((2147483648 : Int) : ℚ)) = 2147483647 ∧
    ratTrunc ((2147483648 : Int) : ℚ) = 2147483648 ∧
    (2147483647 : Int) ≠ 2147483648 := by
  refine ⟨by decide, by decide, by decide⟩

/-- C8 (amended).  The narrowing conversions map NaN to 0, positive infinity
to the target maximum, negative infinity to the target minimum, and every
finite value to its truncation toward zero saturated to the target range:
the exact truncation whenever it fits, the maximum (resp. minimum) when the
truncation lies above (resp. below) the range. -/
theorem narrowing_conversions_amended :
    (f2i .nan = 0 ∧ f2i .posInf = 2 ^ 31 - 1 ∧ f2i .negInf = -(2 ^ 31)) ∧
    (f2l .nan = 0 ∧ f2l .posInf = 2 ^ 63 - 1 ∧ f2l .negInf = -(2 ^ 63)) ∧
    (d2i .nan = 0 ∧ d2i .posInf = 2 ^ 31 - 1 ∧ d2i .negInf = -(2 ^ 31)) ∧
    (d2l .nan = 0 ∧ d2l .posInf = 2 ^ 63 - 1 ∧ d2l .negInf = -(2 ^ 63)) ∧
    (∀ q : ℚ, -(2 ^ 31) ≤ ratTrunc q → ratTrunc q ≤ 2 ^ 31 - 1 →
      f2i (.finite q) = ratTrunc q ∧ d2i (.finite q) = ratTrunc q) ∧
    (∀ q : ℚ, -(2 ^ 63) ≤ ratTrunc q → ratTrunc q ≤ 2 ^ 63 - 1 →
      f2l (.finite q) = ratTrunc q ∧ d2l (.finite q) = ratTrunc q) ∧
    (∀ q : ℚ, 2 ^ 31 - 1 < ratTrunc q →
      f2i (.finite q) = 2 ^ 31 - 1 ∧ d2i (.finite q) = 2 ^ 31 - 1) ∧
    (∀ q : ℚ, ratTrunc q < -(2 ^ 31) →
      f2i (.finite q) = -(2 ^ 31) ∧ d2i (.finite q) = -(2 ^ 31)) ∧
    (∀ q : ℚ, 2 ^ 63 - 1 < ratTrunc q →
      f2l (.finite q) = 2 ^ 63 - 1 ∧ d2l (.finite q) = 2 ^ 63 - 1) ∧
    (∀ q : ℚ, ratTrunc q < -(2 ^ 63) →
      f2l (.finite q) = -(2 ^ 63) ∧ d2l (.finite q) = -(2 ^ 63)) := by
  refine ⟨⟨rfl, rfl, rfl⟩, ⟨rfl, rfl, rfl⟩, ⟨rfl, rfl, rfl⟩, ⟨rfl, rfl, rfl⟩,
    ?_, ?_, ?_, ?_, ?_, ?_⟩ <;>
    intro q h1 <;>
    first
    | (intro h2
       constructor <;>
         simp only [f2i, f2l, d2i, d2l, FP.is_nan, FP.is_infinite, castSat,
           Bool.false_eq_true, if_false] <;>
         omega)
    | (constructor <;>
         simp only [f2i, f2l, d2i, d2l, FP.is_nan, FP.is_infinite, castSat,
           Bool.false_eq_true, if_false] <;>
         omega)

/-- C8 witness: the amended theorem applied at the in-range finite value 7
and at the out-of-range finite value `2 ^ 32`. -/
theorem narrowing_conversions_amended_witness :
    f2i (.finite ((7 : Int) : ℚ)) = 7 ∧
    f2i (.finite ((4294967296 : Int) : ℚ)) = 2 ^ 31 - 1 :=
  ⟨by
      have h := (narrowing_conversions_amended.2.2.2.2.1 ((7 : Int) : ℚ)
        (by decide) (by decide)).1
      rw [h]; decide,
    (narrowing_conversions_amended.2.2.2.2.2.2.1 ((4294967296 : Int) : ℚ)
      (by decide)).1⟩

/-- C9.  When the handler search finds no matching entry (non-positive
result, the no-match signal the source tests with `handler > 0`), raising an
exception inside the frame ends with the thread's pending-exception slot
cleared and the exception reference set as the frame's return value; the
frame state shows no other escape — the call stack is untouched. -/
theorem unhandled_exception_roundtrip (f : Frame) (ext : OopV)
    (search : OopV → Int) (h1 : f.pending = some ext) (h2 : ext ≠ OopV.nullv)
    (h3 : search ext ≤ 0) :
    handle_exception search f =
      some { f with stack := [], pending := none, return_v := some ext } := by
  unfold handle_exception
  rw [h1]
  unfold athrow
  cases ext with
  | nullv => exact absurd rfl h2
  | int v => simp only []; rw [if_neg (by omega)]
  | long v => simp only []; rw [if_neg (by omega)]
  | float v => simp only []; rw [if_neg (by omega)]
  | double v => simp only []; rw [if_neg (by omega)]
  | ref id => simp only []; rw [if_neg (by omega)]
  | array elems => simp only []; rw [if_neg (by omega)]
  | exc k m => simp only []; rw [if_neg (by omega)]

/-- C9 witness: a concrete frame with a pending exception and a search that
matches nothing. -/
theorem unhandled_exception_roundtrip_witness :
    handle_exception (fun _ => 0)
      { stack := [OopV.int 1], pc := 5, pending := some (OopV.exc .J_NPE none),
        return_v := none } =
      some
        { stack := [], pc := 5, pending := none,
          return_v := some (OopV.exc .J_NPE none) } :=
  unhandled_exception_roundtrip _ _ _ rfl (fun h => nomatch h) (by decide)

/-- C10.  The void return sets the frame's return value to the canonical null
singleton `get_null`, the very value `areturn` would set after a method
pushed a null reference — by the returned value alone the two are
indistinguishable. -/
theorem return_void_yields_canonical_null (f g : Frame) (s : List OopV) :
    (return_ f).return_v = some get_null ∧
    areturn { g with stack := get_null :: s } =
      some { g with stack := s, return_v := some get_null } := by
  exact ⟨rfl, rfl⟩
